import Mathlib

/-!
Verification of the ingestion-and-redaction pipeline of the
Gemini-Sentinel security agent.

The embedding covers:
* the data model (`StagedFile`, `RedactionSummary`) from `src/types.ts` and
  `src/services/secretSanitizer.ts`;
* a small backtracking matcher reproducing the JavaScript `RegExp`
  semantics used by the source (leftmost match position, alternation tried
  left to right, greedy and lazy quantifiers, case-insensitive flags), over
  `List Char`;
* the pattern catalog `REDACTION_PATTERNS`, `labelFor` and `redactSecrets`
  from `src/services/secretSanitizer.ts`;
* the admission loop of `handleFileUpload` and the analyze-time gate of
  `handleAnalyze` from the dashboard component.
-/

namespace Sentinel

/-- Structure `StagedFile` from `src/types.ts`. -/
structure StagedFile where
  name : String
  path : String
  content : String
  size : Nat
deriving DecidableEq, Repr

/-- Structure `RedactionSummary` from `src/services/secretSanitizer.ts`.  The
`patterns` field models the JS `Set` by a duplicate-free list in first
insertion order. -/
structure RedactionSummary where
  totalMatches : Nat
  filesWithMatches : Nat
  patterns : List String
deriving DecidableEq, Repr

/-! ### A backtracking regex matcher with JavaScript semantics

Only the constructs appearing in the source's regex literals are needed:
single-character classes, literal sequences, alternation, an optional
group, character-class quantifiers `{lo,hi}` / `{lo,}` / `*` / `*?`, and
the end-of-input anchor `$`. -/

/-- Regex abstract syntax.  `rep p lo hi lz` is the quantifier
`p{lo,hi}` (`hi = none` meaning unbounded) over the one-character class
`p`; `lz = true` makes it lazy (`*?`), otherwise greedy.  All quantifiers
in the source apply to one-character classes. -/
inductive RE where
  | eps
  | ch (p : Char → Bool)
  | seq (a b : RE)
  | alt (a b : RE)
  | opt (a : RE)
  | rep (p : Char → Bool) (lo : Nat) (hi : Option Nat) (lz : Bool)
  | eos

/-- First-success choice on `Option`, with the second branch thunked so
that backtracking only explores it on failure of the first. -/
def firstSome (a : Option (List Char)) (b : Unit → Option (List Char)) :
    Option (List Char) :=
  match a with
  | some r => some r
  | none => b ()

/-- Matcher for a character-class quantifier.  `lo` characters are still
required, `hi` more are allowed (`none` = unbounded).  Greedy consumes
first and falls back to the continuation `k`; lazy tries `k` first.  This
is exactly the backtracking priority of a JavaScript regex engine. -/
def matRep (p : Char → Bool) (lz : Bool) :
    Nat → Option Nat → List Char → (List Char → Option (List Char)) →
    Option (List Char)
  | lo, _, [], k => if lo = 0 then k [] else none
  | lo, hi, c :: cs, k =>
    let canTake : Bool := p c && hi != some 0
    let takeB : Unit → Option (List Char) := fun _ =>
      if canTake then matRep p lz (lo - 1) (hi.map (· - 1)) cs k else none
    let skipB : Unit → Option (List Char) := fun _ =>
      if lo = 0 then k (c :: cs) else none
    if lz then firstSome (skipB ()) takeB else firstSome (takeB ()) skipB

/-- Continuation-passing matcher.  `mat r cs k` tries the ways `r` can
consume a prefix of `cs` in JavaScript priority order and passes the
remainder to `k`, returning the first success. -/
def mat : RE → List Char → (List Char → Option (List Char)) →
    Option (List Char)
  | .eps, cs, k => k cs
  | .ch _, [], _ => none
  | .ch p, c :: cs, k => if p c then k cs else none
  | .seq a b, cs, k => mat a cs (fun cs' => mat b cs' k)
  | .alt a b, cs, k => firstSome (mat a cs k) (fun _ => mat b cs k)
  | .opt a, cs, k => firstSome (mat a cs k) (fun _ => k cs)
  | .rep p lo hi lz, cs, k => matRep p lz lo hi cs k
  | .eos, cs, k => match cs with
    | [] => k []
    | _ :: _ => none

/-- Finds the leftmost match of `r` in `cs` (trying start positions left
to right, as a JavaScript regex search does) and splits the input into
`(before, matched, after)`. -/
def findMatch (r : RE) : List Char → Option (List Char × List Char × List Char)
  | [] =>
    match mat r [] (fun rest => some rest) with
    | some _ => some ([], [], [])
    | none => none
  | c :: cs =>
    match mat r (c :: cs) (fun rest => some rest) with
    | some rest =>
      some ([], (c :: cs).take ((c :: cs).length - rest.length), rest)
    | none => (findMatch r cs).map (fun pm => (c :: pm.1, pm.2.1, pm.2.2))

/-- One pass of `String.prototype.replace` with a global-flag regex and a
constant replacement, as used by `redactSecrets`: repeatedly take the
leftmost match, emit the replacement, continue after the match (advancing
one character over an empty match, as the JS spec does).  The fuel is
`cs.length + 1`, which always suffices since every iteration either ends
the recursion or consumes at least one input character. -/
def replaceGo (r : RE) (repl : List Char) :
    Nat → List Char → List Char × Nat
  | 0, cs => (cs, 0)
  | fuel + 1, cs =>
    match findMatch r cs with
    | none => (cs, 0)
    | some (pre, m, rest) =>
      if m.isEmpty then
        match rest with
        | [] => (pre ++ repl, 1)
        | c :: rest' =>
          let out := replaceGo r repl fuel rest'
          (pre ++ repl ++ c :: out.1, out.2 + 1)
      else
        let out := replaceGo r repl fuel rest
        (pre ++ repl ++ out.1, out.2 + 1)

/-- Global replace-with-count over a character list. -/
def replaceAll (r : RE) (repl : List Char) (cs : List Char) :
    List Char × Nat :=
  replaceGo r repl (cs.length + 1) cs

/-- Test `r.test s`: does `r` match anywhere in `s`? -/
def rtest (r : RE) (s : String) : Bool :=
  (findMatch r s.data).isSome

/-! ### Character classes used by the source's regex literals -/

/-- Character range test by code point. -/
def between (lo hi : Char) (c : Char) : Bool :=
  lo.toNat ≤ c.toNat && c.toNat ≤ hi.toNat

def isDigitC (c : Char) : Bool := between ('0') ('9') c
def isUpperC (c : Char) : Bool := between ('A') ('Z') c
def isLowerC (c : Char) : Bool := between ('a') ('z') c
def isAlphaC (c : Char) : Bool := isUpperC c || isLowerC c
def isAlnumC (c : Char) : Bool := isAlphaC c || isDigitC c

/-- JavaScript `.`: any character except the four line terminators. -/
def dotC (c : Char) : Bool :=
  !(c == '\n' || c == '\r' || c.toNat == 0x2028 || c.toNat == 0x2029)

/-- JavaScript `\s`: whitespace and line terminators (ASCII part plus
NBSP, BOM, and the Unicode space separators). -/
def wsC (c : Char) : Bool :=
  c == ' ' || c == '\t' || c == '\n' || c == '\r' ||
  c.toNat == 0x0B || c.toNat == 0x0C || c.toNat == 0xA0 ||
  c.toNat == 0x1680 ||
  (0x2000 ≤ c.toNat && c.toNat ≤ 0x200A) ||
  c.toNat == 0x2028 || c.toNat == 0x2029 || c.toNat == 0x202F ||
  c.toNat == 0x205F || c.toNat == 0x3000 || c.toNat == 0xFEFF

/-- A literal character (case-sensitive). -/
def chL (c : Char) : RE := .ch (fun x => x == c)

/-- A literal character under the i flag: either ASCII case. -/
def chCI (c : Char) : RE := .ch (fun x => x.toLower == c.toLower)

/-- A literal string (case-sensitive). -/
def strRE (s : String) : RE :=
  s.data.foldr (fun c r => .seq (chL c) r) .eps

/-- A literal string under the i flag. -/
def strCI (s : String) : RE :=
  s.data.foldr (fun c r => .seq (chCI c) r) .eps

/-- Sequencing of a list of regexes. -/
def reSeq (rs : List RE) : RE := rs.foldr .seq .eps

/-! ### The pattern catalog (`REDACTION_PATTERNS`) -/

/-- Structure `RedactionPattern` from `src/services/secretSanitizer.ts`. -/
structure RedactionPattern where
  name : String
  regex : RE

/-- The class `[A-Z ]`. -/
def upperSpaceC (c : Char) : Bool := isUpperC c || c == ' '
/-- The class `[0-9A-Z]`. -/
def digitUpperC (c : Char) : Bool := isDigitC c || isUpperC c
/-- The class `[0-9A-Za-z\-_]` (also `[0-9A-Za-z_-]`, `[A-Za-z0-9_\-]`). -/
def alnumDashUnderC (c : Char) : Bool := isAlnumC c || c == '-' || c == '_'
/-- The class `[A-Za-z0-9_]`. -/
def alnumUnderC (c : Char) : Bool := isAlnumC c || c == '_'
/-- The class `[A-Za-z0-9-]`. -/
def alnumDashC (c : Char) : Bool := isAlnumC c || c == '-'
/-- The class `[A-Za-z0-9/+=]`. -/
def awsSecretValC (c : Char) : Bool :=
  isAlnumC c || c == '/' || c == '+' || c == '='
/-- The class `['"]`. -/
def quoteC (c : Char) : Bool := c == '\'' || c == '\"'
/-- The class `[:=]`. -/
def colonEqC (c : Char) : Bool := c == ':' || c == '='
/-- The class `[-_ ]`. -/
def dashUnderSpaceC (c : Char) : Bool := c == '-' || c == '_' || c == ' '
/-- The class `[baprs]`. -/
def slackKindC (c : Char) : Bool :=
  c == 'b' || c == 'a' || c == 'p' || c == 'r' || c == 's'

/-- Pattern `-----BEGIN [A-Z ]*PRIVATE KEY-----[\s\S]*?-----END [A-Z ]*PRIVATE KEY-----` with flag `g`. -/
def privateKeyBlockRE : RE := reSeq [
  strRE ("-----BEGIN "), .rep upperSpaceC 0 none false,
  strRE ("PRIVATE KEY-----"),
  .rep (fun _ => true) 0 none true,
  strRE ("-----END "), .rep upperSpaceC 0 none false,
  strRE ("PRIVATE KEY-----")]

/-- Pattern `AKIA[0-9A-Z]{16}` with flag `g`. -/
def awsAccessKeyIdRE : RE := reSeq [
  strRE ("AKIA"), .rep digitUpperC 16 (some 16) false]

/-- Pattern `ASIA[0-9A-Z]{16}` with flag `g`. -/
def awsSessionKeyIdRE : RE := reSeq [
  strRE ("ASIA"), .rep digitUpperC 16 (some 16) false]

/-- Pattern `aws(.{0,20})?(secret|access)?(.{0,20})?key\s*[:=]\s*['"][A-Za-z0-9/+=]{40}['"]` with flags `gi`.
The capturing group `(.{0,20})?` is embedded as the quantifier `.{0,20}`:
a greedy optional around a greedy `{0,20}` quantifier attempts 20 … 0
repetitions and then the empty branch, which yields the same first match
as `{0,20}` alone. -/
def awsSecretAccessKeyRE : RE := reSeq [
  strCI ("aws"),
  .rep dotC 0 (some 20) false,
  .opt (.alt (strCI ("secret")) (strCI ("access"))),
  .rep dotC 0 (some 20) false,
  strCI ("key"),
  .rep wsC 0 none false, .ch colonEqC, .rep wsC 0 none false,
  .ch quoteC, .rep awsSecretValC 40 (some 40) false, .ch quoteC]

/-- Pattern `AIza[0-9A-Za-z\-_]{35}` with flag `g`. -/
def googleApiKeyRE : RE := reSeq [
  strRE ("AIza"), .rep alnumDashUnderC 35 (some 35) false]

/-- Pattern `ghp_[A-Za-z0-9]{36,}|github_pat_[A-Za-z0-9_]{22,}` with flag `g`. -/
def githubTokenRE : RE :=
  .alt (reSeq [strRE ("ghp_"), .rep isAlnumC 36 none false])
       (reSeq [strRE ("github_pat_"), .rep alnumUnderC 22 none false])

/-- Pattern `xox[baprs]-[A-Za-z0-9-]{10,}` with flag `g`. -/
def slackTokenRE : RE := reSeq [
  strRE ("xox"), .ch slackKindC, chL ('-'), .rep alnumDashC 10 none false]

/-- Pattern `sk_live_[0-9a-zA-Z]{16,}` with flag `g`. -/
def stripeSecretKeyRE : RE := reSeq [
  strRE ("sk_live_"), .rep isAlnumC 16 none false]

/-- Pattern `eyJ[0-9A-Za-z_-]{10,}\.[0-9A-Za-z_-]{10,}\.[0-9A-Za-z_-]{10,}` with flag `g`. -/
def jwtRE : RE := reSeq [
  strRE ("eyJ"), .rep alnumDashUnderC 10 none false, chL ('.'),
  .rep alnumDashUnderC 10 none false, chL ('.'),
  .rep alnumDashUnderC 10 none false]

/-- Pattern `(api|secret|token|password)[-_ ]?(key|token|secret|pwd)?\s*[:=]\s*['"][A-Za-z0-9_\-]{16,}['"]` with flags `gi`. -/
def genericSecretAssignmentRE : RE := reSeq [
  .alt (strCI ("api")) (.alt (strCI ("secret"))
    (.alt (strCI ("token")) (strCI ("password")))),
  .opt (.ch dashUnderSpaceC),
  .opt (.alt (strCI ("key")) (.alt (strCI ("token"))
    (.alt (strCI ("secret")) (strCI ("pwd"))))),
  .rep wsC 0 none false, .ch colonEqC, .rep wsC 0 none false,
  .ch quoteC, .rep alnumDashUnderC 16 none false, .ch quoteC]

/-- The catalog `REDACTION_PATTERNS`, in source order. -/
def REDACTION_PATTERNS : List RedactionPattern := [
  { name := "Private Key Block", regex := privateKeyBlockRE },
  { name := "AWS Access Key ID", regex := awsAccessKeyIdRE },
  { name := "AWS Session Key ID", regex := awsSessionKeyIdRE },
  { name := "AWS Secret Access Key", regex := awsSecretAccessKeyRE },
  { name := "Google API Key", regex := googleApiKeyRE },
  { name := "GitHub Token", regex := githubTokenRE },
  { name := "Slack Token", regex := slackTokenRE },
  { name := "Stripe Secret Key", regex := stripeSecretKeyRE },
  { name := "JWT", regex := jwtRE },
  { name := "Generic Secret Assignment", regex := genericSecretAssignmentRE }]

/-! ### `labelFor` and `redactSecrets` -/

/-- The run-collapse step of `labelFor`'s `.replace` of each `[^A-Z0-9]+` run by `_`:
each maximal run of characters outside `[A-Z0-9]` becomes one `_`. -/
def collapseGo : Bool → List Char → List Char
  | _, [] => []
  | inRun, c :: cs =>
    if isUpperC c || isDigitC c then c :: collapseGo false cs
    else if inRun then collapseGo true cs
    else '_' :: collapseGo true cs

/-- Function `labelFor` from `src/services/secretSanitizer.ts`:
`name.toUpperCase().replace(/[^A-Z0-9]+/g, "_")`. -/
def labelFor (name : String) : String :=
  ⟨collapseGo false (name.data.map Char.toUpper)⟩

/-- The literal replacement written for each match of a pattern. -/
def placeholderFor (name : String) : String :=
  "[REDACTED:" ++ labelFor name ++ "]"

/-- Models the JS `Set.add`: append if not already present (insertion
order preserved). -/
def addName (names : List String) (n : String) : List String :=
  if names.contains n then names else names ++ [n]

/-- The inner pattern loop of `redactSecrets` for one file: run every
catalog pattern, in catalog order, over the current (possibly already
partially redacted) content; accumulate the file's match count and the
global pattern-name set. -/
def scanPats (pats : List RedactionPattern) (content : List Char)
    (fileMatches : Nat) (names : List String) :
    List Char × Nat × List String :=
  match pats with
  | [] => (content, fileMatches, names)
  | p :: ps =>
    let rr := replaceAll p.regex (placeholderFor p.name).data content
    scanPats ps rr.1 (fileMatches + rr.2)
      (if rr.2 > 0 then addName names p.name else names)

/-- The `files.map` loop of `redactSecrets`, with the mutable counters
(`totalMatches`, `filesWithMatches`, `patterns`) threaded explicitly. -/
def redactLoop : List StagedFile → Nat → Nat → List String →
    List StagedFile × Nat × Nat × List String
  | [], total, fwm, names => ([], total, fwm, names)
  | f :: fs, total, fwm, names =>
    let s := scanPats REDACTION_PATTERNS f.content.data 0 names
    let rest := redactLoop fs (total + s.2.1)
      (if s.2.1 > 0 then fwm + 1 else fwm) s.2.2
    ({ f with content := ⟨s.1⟩ } :: rest.1, rest.2)

/-- Function `redactSecrets` from `src/services/secretSanitizer.ts`. -/
def redactSecrets (files : List StagedFile) :
    List StagedFile × RedactionSummary :=
  let r := redactLoop files 0 0 []
  (r.1, { totalMatches := r.2.1, filesWithMatches := r.2.2.1,
          patterns := r.2.2.2 })

/-! ### Mutable matcher state (`lastIndex`)

The ten entries of `REDACTION_PATTERNS` are shared module-level `RegExp`
constants with the `g` flag, so each carries a mutable `lastIndex`.  Per
ECMA-262, `String.prototype.replace` applied to a global regex sets
`lastIndex` to 0 before searching and leaves it 0 when the search is
exhausted, so one pass over a file both ignores and clears whatever
`lastIndex` values were left behind.  The definitions below thread that
state explicitly so the claim that no state leaks between invocations can
be stated rather than assumed. -/

/-- Models `String.prototype.replace` with a global regex and an explicit
incoming `lastIndex`: the search ignores the incoming value (it is reset
to 0 first) and finishes with `lastIndex = 0`. -/
def replaceAllG (lastIndex : Nat) (r : RE) (repl : List Char)
    (cs : List Char) : (List Char × Nat) × Nat :=
  match lastIndex with
  | _ => (replaceAll r repl cs, 0)

/-- Variant of `scanPats` with each pattern's `lastIndex` threaded through (one per
catalog entry, consumed and produced positionally). -/
def scanPatsSt (pats : List RedactionPattern) (sts : List Nat)
    (content : List Char) (fileMatches : Nat) (names : List String) :
    (List Char × Nat × List String) × List Nat :=
  match pats with
  | [] => ((content, fileMatches, names), [])
  | p :: ps =>
    let rr := replaceAllG (sts.headD 0) p.regex (placeholderFor p.name).data
      content
    let rest := scanPatsSt ps sts.tail rr.1.1 (fileMatches + rr.1.2)
      (if rr.1.2 > 0 then addName names p.name else names)
    (rest.1, rr.2 :: rest.2)

/-- Variant of `redactLoop` with the shared `lastIndex` vector threaded through every
file (each file's scan reads and rewrites the same ten registers). -/
def redactLoopSt : List StagedFile → List Nat → Nat → Nat → List String →
    (List StagedFile × Nat × Nat × List String) × List Nat
  | [], sts, total, fwm, names => (([], total, fwm, names), sts)
  | f :: fs, sts, total, fwm, names =>
    let s := scanPatsSt REDACTION_PATTERNS sts f.content.data 0 names
    let rest := redactLoopSt fs s.2 (total + s.1.2.1)
      (if s.1.2.1 > 0 then fwm + 1 else fwm) s.1.2.2
    (({ f with content := ⟨s.1.1⟩ } :: rest.1.1, rest.1.2), rest.2)

/-- Variant of `redactSecrets` with the catalog's `lastIndex` state made explicit:
takes the ten registers as they stand when the call begins and returns
them as the call leaves them. -/
def redactSecretsSt (files : List StagedFile) (sts : List Nat) :
    (List StagedFile × RedactionSummary) × List Nat :=
  let r := redactLoopSt files sts 0 0 []
  ((r.1.1, { totalMatches := r.1.2.1, filesWithMatches := r.1.2.2.1,
             patterns := r.1.2.2.2 }), r.2)

/-! ### The Admission Controller (`handleFileUpload`) -/

/-- A candidate file as delivered by the file picker: the fields of the
DOM `File` object that `handleFileUpload` reads.  `webkitRelativePath` is
the empty string when absent, as in the browser; `text` is what
`file.text()` resolves to. -/
structure CandidateFile where
  name : String
  webkitRelativePath : String
  size : Nat
  text : String
deriving DecidableEq, Repr

/-- Models `const relativePath = file.webkitRelativePath || file.name`. -/
def relativePathOf (file : CandidateFile) : String :=
  if file.webkitRelativePath = "" then file.name else file.webkitRelativePath

/-- Constant `IGNORED_PATH_SEGMENTS` from the dashboard component. -/
def IGNORED_PATH_SEGMENTS : List String :=
  ["node_modules", "dist", "build", "coverage", ".git", ".next", "out"]

/-- ASCII lowering of a string, as `String.prototype.toLowerCase` does on
the ASCII paths involved. -/
def toLowerStr (s : String) : String := ⟨s.data.map Char.toLower⟩

/-- Models `String.prototype.includes`: substring containment. -/
def hasSub (pat : List Char) : List Char → Bool
  | [] => pat.isEmpty
  | c :: cs => pat.isPrefixOf (c :: cs) || hasSub pat cs

/-- Function `shouldIgnorePath` from the dashboard component. -/
def shouldIgnorePath (path : String) : Bool :=
  let lower := toLowerStr path
  IGNORED_PATH_SEGMENTS.any (fun segment =>
    hasSub ("/" ++ segment ++ "/").data lower.data ||
    hasSub ("\\" ++ segment ++ "\\").data lower.data ||
    (segment ++ "/").data.isPrefixOf lower.data)

/-- Literal `.` (no case to fold). -/
def dotLit : RE := chL ('.')

/-- Constant `SENSITIVE_FILE_PATTERNS` from the dashboard component, in source
order: `/\.env(\.|$)/i`, `/id_rsa/i`, `/\.pem$/i`, `/\.key$/i`,
`/\.pfx$/i`, `/\.p12$/i`, `/\.kdbx$/i`, `/secrets?\./i`. -/
def SENSITIVE_FILE_PATTERNS : List RE := [
  reSeq [dotLit, strCI ("env"), .alt dotLit .eos],
  strCI ("id_rsa"),
  reSeq [dotLit, strCI ("pem"), .eos],
  reSeq [dotLit, strCI ("key"), .eos],
  reSeq [dotLit, strCI ("pfx"), .eos],
  reSeq [dotLit, strCI ("p12"), .eos],
  reSeq [dotLit, strCI ("kdbx"), .eos],
  reSeq [strCI ("secret"), .opt (chCI ('s')), dotLit]]

/-- Models `SENSITIVE_FILE_PATTERNS.some((pattern) => pattern.test(file.name))`. -/
def isSensitiveName (name : String) : Bool :=
  SENSITIVE_FILE_PATTERNS.any (fun r => rtest r name)

/-- Models `text.includes('�') || text.includes('\u0000')`. -/
def containsBinaryMarker (text : String) : Bool :=
  text.data.any (fun c => c.toNat == 0xFFFD) ||
  text.data.any (fun c => c.toNat == 0)

/-- The admission limits and the sensitive-file toggle consulted by the
loop.  The source inlines the three limits as module constants and reads
the toggle from component state; they are grouped here so the theorems
cover the constants' values as the instance `defaultPolicy`. -/
structure AdmissionPolicy where
  maxFileCount : Nat
  maxFileSizeBytes : Nat
  maxTotalSizeBytes : Nat
  allowSensitiveFiles : Bool
deriving DecidableEq, Repr

/-- Values `MAX_FILE_COUNT = 300`, `MAX_FILE_SIZE_BYTES = 1024 * 1024`,
`MAX_TOTAL_SIZE_BYTES = 6 * 1024 * 1024`, with the sensitive-file
override off (its initial state). -/
def defaultPolicy : AdmissionPolicy :=
  { maxFileCount := 300, maxFileSizeBytes := 1024 * 1024,
    maxTotalSizeBytes := 6 * 1024 * 1024, allowSensitiveFiles := false }

/-- The outcome of one batch admission: the locals of `handleFileUpload`
when the loop ends.  `existingPaths` models the JS `Set` by its list of
insertions; `decodedPaths` instruments which candidates reached the
`await file.text()` decode step (in order), so that statements about when
decoding happens can be made. -/
structure AdmissionOutcome where
  accepted : List StagedFile
  existingPaths : List String
  runningTotal : Nat
  skippedSensitive : Nat
  skippedLarge : Nat
  skippedIgnored : Nat
  skippedDuplicate : Nat
  skippedBinary : Nat
  limitReached : Bool
  decodedPaths : List String
deriving DecidableEq, Repr

/-- The `for` loop of `handleFileUpload`, candidate by candidate.
`stagedCount` is `stagedFiles.length`, which the source reads unchanged
throughout the batch.  A `break` in the source is a branch that returns
the state without recursing. -/
def handleFileUploadLoop (policy : AdmissionPolicy) (stagedCount : Nat) :
    List CandidateFile → AdmissionOutcome → AdmissionOutcome
  | [], st => st
  | file :: rest, st =>
    let relativePath := relativePathOf file
    if shouldIgnorePath relativePath then
      handleFileUploadLoop policy stagedCount rest
        { st with skippedIgnored := st.skippedIgnored + 1 }
    else if !policy.allowSensitiveFiles && isSensitiveName file.name then
      handleFileUploadLoop policy stagedCount rest
        { st with skippedSensitive := st.skippedSensitive + 1 }
    else if st.existingPaths.contains relativePath then
      handleFileUploadLoop policy stagedCount rest
        { st with skippedDuplicate := st.skippedDuplicate + 1 }
    else if stagedCount + st.accepted.length ≥ policy.maxFileCount then
      { st with limitReached := true }
    else if file.size > policy.maxFileSizeBytes then
      handleFileUploadLoop policy stagedCount rest
        { st with skippedLarge := st.skippedLarge + 1 }
    else if st.runningTotal + file.size > policy.maxTotalSizeBytes then
      { st with limitReached := true }
    else
      let text := file.text
      let st' := { st with decodedPaths := st.decodedPaths ++ [relativePath] }
      let newFile : StagedFile :=
        { name := file.name, path := relativePath,
          content := text, size := file.size }
      if containsBinaryMarker text then
        handleFileUploadLoop policy stagedCount rest
          { st' with skippedBinary := st'.skippedBinary + 1 }
      else
        handleFileUploadLoop policy stagedCount rest
          { st' with
            accepted := st'.accepted ++ [newFile],
            existingPaths := st'.existingPaths ++ [relativePath],
            runningTotal := st'.runningTotal + file.size }

/-- The state of `handleFileUpload`'s locals before the loop starts:
`newStagedFiles = []`, `existingPaths = new Set(stagedFiles.map(path))`,
`runningTotal = totalSize`, every skip counter 0, `limitReached = false`. -/
def initialAdmissionState (stagedPaths : List String) (totalSize : Nat) :
    AdmissionOutcome :=
  { accepted := [], existingPaths := stagedPaths, runningTotal := totalSize,
    skippedSensitive := 0, skippedLarge := 0, skippedIgnored := 0,
    skippedDuplicate := 0, skippedBinary := 0, limitReached := false,
    decodedPaths := [] }

/-- Sum of staged sizes, as the `totalSize` memo computes it. -/
def sumSizes (files : List StagedFile) : Nat :=
  files.foldl (fun sum file => sum + file.size) 0

/-- Function `handleFileUpload` from the dashboard component, as a function of the
current staged set and the candidate batch. -/
def handleFileUpload (policy : AdmissionPolicy) (staged : List StagedFile)
    (candidates : List CandidateFile) : AdmissionOutcome :=
  handleFileUploadLoop policy staged.length candidates
    (initialAdmissionState (staged.map (fun f => f.path)) (sumSizes staged))

/-! ### The Transmission Gate (`handleAnalyze`) -/

/-- What one analyze attempt does with the staged set: hand a file list to
the external analysis collaborator, or stop with a user-facing reason. -/
inductive AnalyzeOutcome where
  | Send (files : List StagedFile)
  | Blocked (reason : String)
deriving DecidableEq, Repr

/-- The error message set by `handleAnalyze` when secrets are detected,
redaction is off, and unredacted sending is not allowed. -/
def secretsBlockedMessage : String :=
  "Potential secrets detected. Enable redaction or allow unredacted sending to proceed."

/-- The decision core of `handleAnalyze`: run `redactSecrets` over the
staged set first (the summary is kept for display in every case), then
block or choose the outbound file set from the two toggles.  The proxy
liveness and empty-set guards ahead of this code are environment
preconditions outside the pipeline and are not modelled. -/
def handleAnalyze (stagedFiles : List StagedFile)
    (redactEnabled allowUnredactedSecrets : Bool) :
    AnalyzeOutcome × RedactionSummary :=
  let r := redactSecrets stagedFiles
  if !redactEnabled && decide (r.2.totalMatches > 0) &&
      !allowUnredactedSecrets then
    (.Blocked secretsBlockedMessage, r.2)
  else
    (.Send (if redactEnabled then r.1 else stagedFiles), r.2)

/-! ### Concrete inputs used by the claim instances -/

/-- The input of the spec's `password = "abcdefghij1234567"` test case. -/
def c8File : StagedFile :=
  { name := "config.txt", path := "config.txt",
    content := "password = \"abcdefghij1234567\"", size := 30 }

/-- A file whose content defeats the idempotence of `redactSecrets`: the
generic-assignment match is replaced by a placeholder whose text contains
`SECRET`, shortening the distance between `aws` and `key = "…40…"` to
within the `.{0,20}` gaps of the AWS Secret Access Key pattern, so a
second scan matches where the first could not. -/
def c1File : StagedFile :=
  { name := "creds.txt", path := "creds.txt",
    content := "aws password = \"0123456789012345678901234567890123456789\" key = \"AAAAAAAAAAAAAAAAAAAAAAAAAAAAAAAAAAAAAAA/\"",
    size := 105 }

/-- A staged file holding one generic secret assignment, for exercising
the transmission gate's blocked branch. -/
def gateDemoFile : StagedFile :=
  { name := "notes.txt", path := "notes.txt",
    content := "token = \"abcdefghijklmnop\"", size := 26 }

/-- A candidate inside an ignored directory. -/
def ignoredDemoCandidate : CandidateFile :=
  { name := "a.js", webkitRelativePath := "node_modules/a.js", size := 4,
    text := "x=1;" }

/-- A second candidate inside an ignored directory (case-varied). -/
def ignoredDemoCandidate2 : CandidateFile :=
  { name := "b.js", webkitRelativePath := "pkg/Dist/b.js", size := 4,
    text := "y=2;" }

/-- A small ordinary candidate. -/
def plainDemoCandidate : CandidateFile :=
  { name := "main.ts", webkitRelativePath := "", size := 5, text := "hello" }

/-- A staged file matching `plainDemoCandidate`'s path, for exercising the
duplicate check. -/
def dupDemoStaged : StagedFile :=
  { name := "main.ts", path := "main.ts", content := "hello", size := 5 }

/-! ## Theorems -/

/-- Shape lemma for the redaction loop: the output list has the same
names, paths and sizes, positionally, as the input. -/
theorem redactLoop_shape (fs : List StagedFile) :
    ∀ (total fwm : Nat) (names : List String),
    ((redactLoop fs total fwm names).1.map (fun f => f.name) =
        fs.map (fun f => f.name)) ∧
    ((redactLoop fs total fwm names).1.map (fun f => f.path) =
        fs.map (fun f => f.path)) ∧
    ((redactLoop fs total fwm names).1.map (fun f => f.size) =
        fs.map (fun f => f.size)) := by
  induction fs with
  | nil => intro total fwm names; simp [redactLoop]
  | cons f fs ih =>
    intro total fwm names
    have h := ih (total + (scanPats REDACTION_PATTERNS f.content.data 0 names).2.1)
      (if (scanPats REDACTION_PATTERNS f.content.data 0 names).2.1 > 0
        then fwm + 1 else fwm)
      (scanPats REDACTION_PATTERNS f.content.data 0 names).2.2
    simp only [redactLoop, List.map_cons]
    exact ⟨by rw [h.1], by rw [h.2.1], by rw [h.2.2]⟩

/-- Claim C10: `scan` returns a list of the same length with files in the
same order, keeping each input file's name, path and size; only the
content field may differ. -/
theorem redactSecrets_preserves_shape (files : List StagedFile) :
    (redactSecrets files).1.length = files.length ∧
    ((redactSecrets files).1.map (fun f => f.name) =
        files.map (fun f => f.name)) ∧
    ((redactSecrets files).1.map (fun f => f.path) =
        files.map (fun f => f.path)) ∧
    ((redactSecrets files).1.map (fun f => f.size) =
        files.map (fun f => f.size)) := by
  have h := redactLoop_shape files 0 0 []
  refine ⟨?_, h.1, h.2.1, h.2.2⟩
  have := congrArg List.length h.1
  simpa [redactSecrets] using this

/-- State lemma: the threaded `lastIndex` registers never influence the
scan of one file, and every register is left at 0 (one per pattern). -/
theorem scanPatsSt_pure (pats : List RedactionPattern) :
    ∀ (sts : List Nat) (content : List Char) (n : Nat) (names : List String),
    (scanPatsSt pats sts content n names).1 = scanPats pats content n names ∧
    (scanPatsSt pats sts content n names).2 =
      List.replicate pats.length 0 := by
  induction pats with
  | nil => intro sts content n names; simp [scanPatsSt, scanPats]
  | cons p ps ih =>
    intro sts content n names
    simp only [scanPatsSt, scanPats, replaceAllG, List.replicate]
    exact ⟨(ih ..).1, by rw [(ih ..).2]⟩

/-- State lemma lifted over the file list. -/
theorem redactLoopSt_pure (fs : List StagedFile) :
    ∀ (sts : List Nat) (total fwm : Nat) (names : List String),
    (redactLoopSt fs sts total fwm names).1 =
      redactLoop fs total fwm names := by
  induction fs with
  | nil => intro sts total fwm names; simp [redactLoopSt, redactLoop]
  | cons f fs ih =>
    intro sts total fwm names
    simp only [redactLoopSt, redactLoop]
    rw [(scanPatsSt_pure ..).1, ih]

/-- Claim C9: scanning the same content through the same catalog twice
yields identical output and counts — the result does not depend on the
incoming `lastIndex` values of the shared global-flag regex constants,
equals the pure scan, and a second invocation started from the state the
first one left behind returns the same result. -/
theorem redactSecrets_deterministic (files : List StagedFile)
    (sts sts' : List Nat) :
    (redactSecretsSt files sts).1 = (redactSecretsSt files sts').1 ∧
    (redactSecretsSt files sts).1 = redactSecrets files ∧
    (redactSecretsSt files ((redactSecretsSt files sts).2)).1 =
      (redactSecretsSt files sts).1 := by
  have h : ∀ s : List Nat, (redactSecretsSt files s).1 = redactSecrets files := by
    intro s
    simp only [redactSecretsSt, redactSecrets]
    rw [redactLoopSt_pure]
  exact ⟨by rw [h, h], h sts, by rw [h, h]⟩

set_option maxRecDepth 200000 in
/-- Claim C8: on content `password = "abcdefghij1234567"` the scan yields
exactly the placeholder `[REDACTED:GENERIC_SECRET_ASSIGNMENT]` (that label
being the pattern's name upper-cased with runs of non-alphanumerics
collapsed to `_`), with `totalMatches = 1`. -/
theorem generic_secret_assignment_redaction :
    (redactSecrets [c8File]).1.map (fun f => f.content) =
      ["[REDACTED:GENERIC_SECRET_ASSIGNMENT]"] ∧
    (redactSecrets [c8File]).2.totalMatches = 1 ∧
    labelFor ("Generic Secret Assignment") = "GENERIC_SECRET_ASSIGNMENT" := by
  decide

set_option maxRecDepth 200000 in
/-- Claim C1, refuted on the code: scanning `c1File` redacts its one
generic-assignment secret, yet scanning the redacted output again still
produces a match — the AWS Secret Access Key pattern fires across the
`[REDACTED:GENERIC_SECRET_ASSIGNMENT]` placeholder — so
`scan(scan(files).redactedFiles).summary.totalMatches = 1`, not 0. -/
theorem scan_not_idempotent_on_redacted_output :
    (redactSecrets [c1File]).2.totalMatches = 1 ∧
    (redactSecrets (redactSecrets [c1File]).1).2.totalMatches = 1 ∧
    (redactSecrets (redactSecrets [c1File]).1).2.patterns =
      ["AWS Secret Access Key"] := by
  decide

/-- Claim C2: the transmission gate always runs the Redaction Engine over
the staged set first (the summary it reports is the engine's, in every
case), and then: with redaction enabled it sends the redacted files
regardless of match count; with redaction disabled it sends the originals
when there are no matches, blocks with the secrets message when matches
exist and unredacted sending is not allowed, and sends the unredacted
originals when the user explicitly allowed it. -/
theorem transmission_gate_policy (staged : List StagedFile) (re au : Bool) :
    ((handleAnalyze staged re au).2 = (redactSecrets staged).2) ∧
    (re = true →
      (handleAnalyze staged re au).1 =
        AnalyzeOutcome.Send (redactSecrets staged).1) ∧
    (re = false → (redactSecrets staged).2.totalMatches = 0 →
      (handleAnalyze staged re au).1 = AnalyzeOutcome.Send staged) ∧
    (re = false → 0 < (redactSecrets staged).2.totalMatches → au = false →
      (handleAnalyze staged re au).1 =
        AnalyzeOutcome.Blocked secretsBlockedMessage) ∧
    (re = false → 0 < (redactSecrets staged).2.totalMatches → au = true →
      (handleAnalyze staged re au).1 = AnalyzeOutcome.Send staged) := by
  refine ⟨?_, ?_, ?_, ?_, ?_⟩
  · by_cases hco : (!re &&
        decide ((redactSecrets staged).2.totalMatches > 0) && !au) = true
    · simp [handleAnalyze, hco]
    · simp [handleAnalyze, hco]
  · intro h; subst h
    simp [handleAnalyze]
  · intro h h0; subst h
    simp [handleAnalyze, h0]
  · intro h h0 h1; subst h; subst h1
    have hd : decide ((redactSecrets staged).2.totalMatches > 0) = true :=
      decide_eq_true h0
    simp [handleAnalyze, hd]
  · intro h h0 h1; subst h; subst h1
    simp [handleAnalyze]

/-- Instance of the gate theorem: with redaction off and no override, one
detected secret blocks the attempt with the secrets message. -/
theorem transmission_gate_policy_witness :
    (handleAnalyze [gateDemoFile] false false).1 =
      AnalyzeOutcome.Blocked secretsBlockedMessage :=
  (transmission_gate_policy [gateDemoFile] false false).2.2.2.1 rfl
    (by decide) rfl

/-- Claim C3: per candidate, the admission checks run in exactly the
order ignored-path → sensitivity → duplicate → count-limit → per-file
size → aggregate size → binary content, short-circuiting on the first
failure, so exactly the first failing check's counter is bumped; the two
limit checks halt the whole batch; and the content is decoded (recorded
in `decodedPaths`) only in the last two branches, i.e. only for
candidates that passed every path-, count- and size-based check. -/
theorem admission_first_failing_check (policy : AdmissionPolicy)
    (stagedCount : Nat) (file : CandidateFile) (rest : List CandidateFile)
    (st : AdmissionOutcome) :
    (shouldIgnorePath (relativePathOf file) = true →
      handleFileUploadLoop policy stagedCount (file :: rest) st =
        handleFileUploadLoop policy stagedCount rest
          { st with skippedIgnored := st.skippedIgnored + 1 }) ∧
    (shouldIgnorePath (relativePathOf file) = false →
     (!policy.allowSensitiveFiles && isSensitiveName file.name) = true →
      handleFileUploadLoop policy stagedCount (file :: rest) st =
        handleFileUploadLoop policy stagedCount rest
          { st with skippedSensitive := st.skippedSensitive + 1 }) ∧
    (shouldIgnorePath (relativePathOf file) = false →
     (!policy.allowSensitiveFiles && isSensitiveName file.name) = false →
     st.existingPaths.contains (relativePathOf file) = true →
      handleFileUploadLoop policy stagedCount (file :: rest) st =
        handleFileUploadLoop policy stagedCount rest
          { st with skippedDuplicate := st.skippedDuplicate + 1 }) ∧
    (shouldIgnorePath (relativePathOf file) = false →
     (!policy.allowSensitiveFiles && isSensitiveName file.name) = false →
     st.existingPaths.contains (relativePathOf file) = false →
     stagedCount + st.accepted.length ≥ policy.maxFileCount →
      handleFileUploadLoop policy stagedCount (file :: rest) st =
        { st with limitReached := true }) ∧
    (shouldIgnorePath (relativePathOf file) = false →
     (!policy.allowSensitiveFiles && isSensitiveName file.name) = false →
     st.existingPaths.contains (relativePathOf file) = false →
     stagedCount + st.accepted.length < policy.maxFileCount →
     file.size > policy.maxFileSizeBytes →
      handleFileUploadLoop policy stagedCount (file :: rest) st =
        handleFileUploadLoop policy stagedCount rest
          { st with skippedLarge := st.skippedLarge + 1 }) ∧
    (shouldIgnorePath (relativePathOf file) = false →
     (!policy.allowSensitiveFiles && isSensitiveName file.name) = false →
     st.existingPaths.contains (relativePathOf file) = false →
     stagedCount + st.accepted.length < policy.maxFileCount →
     file.size ≤ policy.maxFileSizeBytes →
     st.runningTotal + file.size > policy.maxTotalSizeBytes →
      handleFileUploadLoop policy stagedCount (file :: rest) st =
        { st with limitReached := true }) ∧
    (shouldIgnorePath (relativePathOf file) = false →
     (!policy.allowSensitiveFiles && isSensitiveName file.name) = false →
     st.existingPaths.contains (relativePathOf file) = false →
     stagedCount + st.accepted.length < policy.maxFileCount →
     file.size ≤ policy.maxFileSizeBytes →
     st.runningTotal + file.size ≤ policy.maxTotalSizeBytes →
     containsBinaryMarker file.text = true →
      handleFileUploadLoop policy stagedCount (file :: rest) st =
        handleFileUploadLoop policy stagedCount rest
          { st with decodedPaths := st.decodedPaths ++ [relativePathOf file],
                    skippedBinary := st.skippedBinary + 1 }) ∧
    (shouldIgnorePath (relativePathOf file) = false →
     (!policy.allowSensitiveFiles && isSensitiveName file.name) = false →
     st.existingPaths.contains (relativePathOf file) = false →
     stagedCount + st.accepted.length < policy.maxFileCount →
     file.size ≤ policy.maxFileSizeBytes →
     st.runningTotal + file.size ≤ policy.maxTotalSizeBytes →
     containsBinaryMarker file.text = false →
      handleFileUploadLoop policy stagedCount (file :: rest) st =
        handleFileUploadLoop policy stagedCount rest
          { st with decodedPaths := st.decodedPaths ++ [relativePathOf file],
                    accepted := st.accepted ++
                      [{ name := file.name, path := relativePathOf file,
                         content := file.text, size := file.size }],
                    existingPaths := st.existingPaths ++ [relativePathOf file],
                    runningTotal := st.runningTotal + file.size }) := by
  refine ⟨?_, ?_, ?_, ?_, ?_, ?_, ?_, ?_⟩
  · intro h1
    simp only [handleFileUploadLoop]
    simp [h1]
  · intro h1 h2
    simp only [handleFileUploadLoop]
    simp [h1, h2]
  · intro h1 h2 h3
    have h3m : relativePathOf file ∈ st.existingPaths := by simpa using h3
    simp only [handleFileUploadLoop]
    simp [h1, h2, h3m]
  · intro h1 h2 h3 h4
    have h3m : relativePathOf file ∉ st.existingPaths := by simpa using h3
    simp only [handleFileUploadLoop]
    simp [h1, h2, h3m, h4]
  · intro h1 h2 h3 h4 h5
    have h3m : relativePathOf file ∉ st.existingPaths := by simpa using h3
    simp only [handleFileUploadLoop]
    simp [h1, h2, h3m, Nat.not_le_of_lt h4, h5]
  · intro h1 h2 h3 h4 h5 h6
    have h3m : relativePathOf file ∉ st.existingPaths := by simpa using h3
    simp only [handleFileUploadLoop]
    simp [h1, h2, h3m, Nat.not_le_of_lt h4, Nat.not_lt_of_le h5, h6]
  · intro h1 h2 h3 h4 h5 h6 h7
    have h3m : relativePathOf file ∉ st.existingPaths := by simpa using h3
    simp only [handleFileUploadLoop]
    simp [h1, h2, h3m, Nat.not_le_of_lt h4, Nat.not_lt_of_le h5,
      Nat.not_lt_of_le h6, h7]
  · intro h1 h2 h3 h4 h5 h6 h7
    have h3m : relativePathOf file ∉ st.existingPaths := by simpa using h3
    simp only [handleFileUploadLoop]
    simp [h1, h2, h3m, Nat.not_le_of_lt h4, Nat.not_lt_of_le h5,
      Nat.not_lt_of_le h6, h7]

/-- Instance of the check-order theorem: a sensitive-named candidate that
is also oversized and duplicate is counted once, as sensitive. -/
theorem admission_first_failing_check_witness :
    handleFileUploadLoop defaultPolicy 1
      [{ name := ".env", webkitRelativePath := "", size := 2000000,
         text := "k=v" }]
      (initialAdmissionState [".env"] 5) =
    handleFileUploadLoop defaultPolicy 1 []
      { initialAdmissionState [".env"] 5 with skippedSensitive := 1 } :=
  (admission_first_failing_check defaultPolicy 1
    { name := ".env", webkitRelativePath := "", size := 2000000,
      text := "k=v" } []
    (initialAdmissionState [".env"] 5)).2.1 (by decide) (by decide)

/-- Concatenating one file adds its size to the staged total. -/
theorem sumSizes_concat (l : List StagedFile) (f : StagedFile) :
    sumSizes (l ++ [f]) = sumSizes l + f.size := by
  simp [sumSizes, List.foldl_append]

/-- Invariant: the loop never lets `runningTotal` grow past the aggregate
limit. -/
theorem loop_runningTotal_le (policy : AdmissionPolicy) (stagedCount : Nat)
    (cs : List CandidateFile) :
    ∀ (st : AdmissionOutcome),
    st.runningTotal ≤ policy.maxTotalSizeBytes →
    (handleFileUploadLoop policy stagedCount cs st).runningTotal ≤
      policy.maxTotalSizeBytes := by
  induction cs with
  | nil => intro st h; simpa [handleFileUploadLoop] using h
  | cons file rest ih =>
    intro st h
    simp only [handleFileUploadLoop]
    split
    · exact ih _ h
    split
    · exact ih _ h
    split
    · exact ih _ h
    split
    · exact h
    split
    · exact ih _ h
    split
    · exact h
    next hagg =>
    split
    · exact ih _ h
    · exact ih _ (Nat.le_of_not_lt hagg)

/-- Accounting: what the loop adds to `runningTotal` is exactly the total
size of the files it appends to the accepted list. -/
theorem loop_runningTotal_accounting (policy : AdmissionPolicy)
    (stagedCount : Nat) (cs : List CandidateFile) :
    ∀ (st : AdmissionOutcome),
    (handleFileUploadLoop policy stagedCount cs st).runningTotal +
        sumSizes st.accepted =
      st.runningTotal +
        sumSizes (handleFileUploadLoop policy stagedCount cs st).accepted := by
  induction cs with
  | nil => intro st; simp [handleFileUploadLoop]
  | cons file rest ih =>
    intro st
    simp only [handleFileUploadLoop]
    split
    · exact ih _
    split
    · exact ih _
    split
    · exact ih _
    split
    · simp
    split
    · exact ih _
    split
    · simp
    split
    · exact ih _
    · have hh := ih ({ st with
        decodedPaths := st.decodedPaths ++ [relativePathOf file],
        accepted := st.accepted ++
          [{ name := file.name, path := relativePathOf file,
             content := file.text, size := file.size }],
        existingPaths := st.existingPaths ++ [relativePathOf file],
        runningTotal := st.runningTotal + file.size })
      rw [sumSizes_concat] at hh
      dsimp only at hh ⊢
      omega

/-- Claim C4: after admission, the accepted batch's total size plus the
pre-existing staged total stays within `maxTotalSizeBytes` (given the
invariant that the pre-existing total already does); and a candidate
whose acceptance would push the running total over the limit halts the
batch with `limitReached`, leaving the state otherwise untouched. -/
theorem admission_aggregate_size_bound (policy : AdmissionPolicy)
    (staged : List StagedFile) (candidates : List CandidateFile)
    (h : sumSizes staged ≤ policy.maxTotalSizeBytes) :
    sumSizes (handleFileUpload policy staged candidates).accepted +
        sumSizes staged ≤ policy.maxTotalSizeBytes ∧
    (∀ (stagedCount : Nat) (file : CandidateFile)
        (rest : List CandidateFile) (st : AdmissionOutcome),
      shouldIgnorePath (relativePathOf file) = false →
      (!policy.allowSensitiveFiles && isSensitiveName file.name) = false →
      st.existingPaths.contains (relativePathOf file) = false →
      stagedCount + st.accepted.length < policy.maxFileCount →
      file.size ≤ policy.maxFileSizeBytes →
      st.runningTotal + file.size > policy.maxTotalSizeBytes →
      handleFileUploadLoop policy stagedCount (file :: rest) st =
        { st with limitReached := true }) := by
  constructor
  · have hle := loop_runningTotal_le policy staged.length candidates
      (initialAdmissionState (staged.map (fun f => f.path)) (sumSizes staged))
      h
    have hacc := loop_runningTotal_accounting policy staged.length candidates
      (initialAdmissionState (staged.map (fun f => f.path)) (sumSizes staged))
    simp only [initialAdmissionState] at hle hacc
    simp only [handleFileUpload, initialAdmissionState]
    rw [show sumSizes ([] : List StagedFile) = 0 from rfl] at hacc
    omega
  · intro stagedCount file rest st h1 h2 h3 h4 h5 h6
    have h3m : relativePathOf file ∉ st.existingPaths := by simpa using h3
    simp only [handleFileUploadLoop]
    simp [h1, h2, h3m, Nat.not_le_of_lt h4, Nat.not_lt_of_le h5, h6]

/-- Instance of the aggregate-size theorem at the default policy with one
small candidate. -/
theorem admission_aggregate_size_bound_witness :
    sumSizes (handleFileUpload defaultPolicy []
        [plainDemoCandidate]).accepted +
      sumSizes [] ≤ defaultPolicy.maxTotalSizeBytes :=
  (admission_aggregate_size_bound defaultPolicy [] [plainDemoCandidate]
    (by decide)).1

/-- Invariant: the loop never lets the staged-plus-accepted count grow
past `maxFileCount`. -/
theorem loop_count_le (policy : AdmissionPolicy) (stagedCount : Nat)
    (cs : List CandidateFile) :
    ∀ (st : AdmissionOutcome),
    stagedCount + st.accepted.length ≤ policy.maxFileCount →
    stagedCount +
        (handleFileUploadLoop policy stagedCount cs st).accepted.length ≤
      policy.maxFileCount := by
  induction cs with
  | nil => intro st h; simpa [handleFileUploadLoop] using h
  | cons file rest ih =>
    intro st h
    simp only [handleFileUploadLoop]
    split
    · exact ih _ h
    split
    · exact ih _ h
    split
    · exact ih _ h
    split
    · exact h
    next hcount =>
    split
    · exact ih _ h
    split
    · exact h
    split
    · exact ih _ h
    · refine ih _ ?_
      have : stagedCount + st.accepted.length < policy.maxFileCount :=
        Nat.lt_of_not_le hcount
      simpa using this

/-- Claim C5: the staged file count after admission never exceeds
`maxFileCount` (given it did not before the batch); and a candidate that
reaches the count check while the staged-plus-accepted count already
meets the limit halts the batch immediately with `limitReached`, leaving
every counter untouched and the remaining candidates unevaluated. -/
theorem admission_count_bound (policy : AdmissionPolicy)
    (staged : List StagedFile) (candidates : List CandidateFile)
    (h : staged.length ≤ policy.maxFileCount) :
    staged.length +
        (handleFileUpload policy staged candidates).accepted.length ≤
      policy.maxFileCount ∧
    (∀ (stagedCount : Nat) (file : CandidateFile)
        (rest : List CandidateFile) (st : AdmissionOutcome),
      shouldIgnorePath (relativePathOf file) = false →
      (!policy.allowSensitiveFiles && isSensitiveName file.name) = false →
      st.existingPaths.contains (relativePathOf file) = false →
      stagedCount + st.accepted.length ≥ policy.maxFileCount →
      handleFileUploadLoop policy stagedCount (file :: rest) st =
        { st with limitReached := true }) := by
  constructor
  · exact loop_count_le policy staged.length candidates
      (initialAdmissionState (staged.map (fun f => f.path)) (sumSizes staged))
      (by simpa [initialAdmissionState] using h)
  · intro stagedCount file rest st h1 h2 h3 h4
    have h3m : relativePathOf file ∉ st.existingPaths := by simpa using h3
    simp only [handleFileUploadLoop]
    simp [h1, h2, h3m, h4]

/-- Instance of the count-bound theorem at the default policy. -/
theorem admission_count_bound_witness :
    List.length ([] : List StagedFile) +
        (handleFileUpload defaultPolicy [] [plainDemoCandidate]).accepted.length ≤
      defaultPolicy.maxFileCount :=
  (admission_count_bound defaultPolicy [] [plainDemoCandidate] (by decide)).1

/-- Invariant: every file the loop adds to the accepted list has a
non-ignored path. -/
theorem loop_accepted_not_ignored (policy : AdmissionPolicy)
    (stagedCount : Nat) (cs : List CandidateFile) :
    ∀ (st : AdmissionOutcome),
    (∀ f ∈ st.accepted, shouldIgnorePath f.path = false) →
    ∀ f ∈ (handleFileUploadLoop policy stagedCount cs st).accepted,
      shouldIgnorePath f.path = false := by
  induction cs with
  | nil => intro st h; simpa [handleFileUploadLoop] using h
  | cons file rest ih =>
    intro st h
    simp only [handleFileUploadLoop]
    split
    · exact ih _ h
    next hign =>
    split
    · exact ih _ h
    split
    · exact ih _ h
    split
    · exact h
    split
    · exact ih _ h
    split
    · exact h
    split
    · exact ih _ h
    · refine ih _ ?_
      intro f hf
      simp only [List.mem_append, List.mem_singleton] at hf
      rcases hf with hf | hf
      · exact h f hf
      · subst hf
        simpa using eq_false_of_ne_true hign

/-- Claim C6: a candidate whose path contains a configured ignored
segment is never admitted (every accepted file's path fails
`shouldIgnorePath`), and processing such a candidate increments exactly
`skippedIgnored`, touching no limit, total, or other counter, regardless
of the candidate's content. -/
theorem ignored_candidates_never_admitted (policy : AdmissionPolicy)
    (staged : List StagedFile) (candidates : List CandidateFile)
    (stagedCount : Nat) (file : CandidateFile) (rest : List CandidateFile)
    (st : AdmissionOutcome) :
    (∀ f ∈ (handleFileUpload policy staged candidates).accepted,
      shouldIgnorePath f.path = false) ∧
    (shouldIgnorePath (relativePathOf file) = true →
      handleFileUploadLoop policy stagedCount (file :: rest) st =
        handleFileUploadLoop policy stagedCount rest
          { st with skippedIgnored := st.skippedIgnored + 1 }) := by
  constructor
  · exact loop_accepted_not_ignored policy staged.length candidates
      (initialAdmissionState (staged.map (fun f => f.path)) (sumSizes staged))
      (by simp [initialAdmissionState])
  · intro h1
    simp only [handleFileUploadLoop]
    simp [h1]

/-- Instance of the ignored-path theorem: a candidate under
`node_modules` is counted as ignored even though its content is fine. -/
theorem ignored_candidates_never_admitted_witness :
    handleFileUploadLoop defaultPolicy 0 [ignoredDemoCandidate]
      (initialAdmissionState [] 0) =
    handleFileUploadLoop defaultPolicy 0 []
      { initialAdmissionState [] 0 with skippedIgnored := 1 } :=
  (ignored_candidates_never_admitted defaultPolicy [] [] 0
    ignoredDemoCandidate [] (initialAdmissionState [] 0)).2 (by decide)

/-- Invariant: the path set tracked by the loop is exactly the staged
paths followed by the accepted files' paths, and it stays
duplicate-free. -/
theorem loop_paths_nodup (policy : AdmissionPolicy) (stagedCount : Nat)
    (stagedPaths : List String) (cs : List CandidateFile) :
    ∀ (st : AdmissionOutcome),
    st.existingPaths = stagedPaths ++ st.accepted.map (fun f => f.path) →
    (stagedPaths ++ st.accepted.map (fun f => f.path)).Nodup →
    (handleFileUploadLoop policy stagedCount cs st).existingPaths =
        stagedPaths ++
          (handleFileUploadLoop policy stagedCount cs st).accepted.map
            (fun f => f.path) ∧
      (stagedPaths ++
        (handleFileUploadLoop policy stagedCount cs st).accepted.map
          (fun f => f.path)).Nodup := by
  induction cs with
  | nil => intro st h hn; simpa [handleFileUploadLoop] using ⟨h, hn⟩
  | cons file rest ih =>
    intro st h hn
    simp only [handleFileUploadLoop]
    split
    · exact ih _ h hn
    split
    · exact ih _ h hn
    split
    · exact ih _ h hn
    next hdup =>
    have hnotmem : relativePathOf file ∉ st.existingPaths := by
      simpa using hdup
    split
    · exact ⟨h, hn⟩
    split
    · exact ih _ h hn
    split
    · exact ⟨h, hn⟩
    split
    · exact ih _ h hn
    · refine ih _ ?_ ?_
      · simp only [List.map_append, List.map_cons, List.map_nil]
        rw [h]
        simp
      · rw [h] at hnotmem
        simp only [List.map_append, List.map_cons, List.map_nil]
        rw [← List.append_assoc, ← List.concat_eq_append]
        exact List.Nodup.concat hnotmem hn

/-- Claim C7: admission preserves path uniqueness — after a batch, the
staged paths together with the accepted candidates' paths are pairwise
distinct (first-seen wins) — and a candidate whose path is already
present is skipped with exactly `skippedDuplicate` incremented, before
any count or size limit can fire, so duplicates consume no quota. -/
theorem staged_paths_unique (policy : AdmissionPolicy)
    (staged : List StagedFile) (candidates : List CandidateFile)
    (stagedCount : Nat) (file : CandidateFile) (rest : List CandidateFile)
    (st : AdmissionOutcome)
    (h : (staged.map (fun f => f.path)).Nodup) :
    ((staged.map (fun f => f.path)) ++
        (handleFileUpload policy staged candidates).accepted.map
          (fun f => f.path)).Nodup ∧
    (shouldIgnorePath (relativePathOf file) = false →
     (!policy.allowSensitiveFiles && isSensitiveName file.name) = false →
     st.existingPaths.contains (relativePathOf file) = true →
      handleFileUploadLoop policy stagedCount (file :: rest) st =
        handleFileUploadLoop policy stagedCount rest
          { st with skippedDuplicate := st.skippedDuplicate + 1 }) := by
  constructor
  · exact (loop_paths_nodup policy staged.length
      (staged.map (fun f => f.path)) candidates
      (initialAdmissionState (staged.map (fun f => f.path)) (sumSizes staged))
      (by simp [initialAdmissionState]) (by simpa [initialAdmissionState]
        using h)).2
  · intro h1 h2 h3
    have h3m : relativePathOf file ∈ st.existingPaths := by simpa using h3
    simp only [handleFileUploadLoop]
    simp [h1, h2, h3m]

/-- Instance of the uniqueness theorem: a candidate whose path matches an
already-staged file is skipped as a duplicate. -/
theorem staged_paths_unique_witness :
    handleFileUploadLoop defaultPolicy 1 [plainDemoCandidate]
      (initialAdmissionState ["main.ts"] 5) =
    handleFileUploadLoop defaultPolicy 1 []
      { initialAdmissionState ["main.ts"] 5 with skippedDuplicate := 1 } :=
  (staged_paths_unique defaultPolicy [dupDemoStaged] [] 1 plainDemoCandidate
    [] (initialAdmissionState ["main.ts"] 5) (by decide)).2 (by decide)
    (by decide) (by decide)

end Sentinel
